import Mathlib

/-!
Verification of the simple3d software rasterizer's geometry pipeline.

The JavaScript source (classes `Vector3D`, `Transformation`, `Camera`,
`Model3D`, `Renderer`, `Application`, and the standalone `parseOBJ`) is
embedded shallowly over the real numbers: JS `number` becomes `ℝ`,
`Math.cos`/`Math.sin`/`Math.sqrt` become `Real.cos`/`Real.sin`/`Real.sqrt`,
a JS `null` return becomes `Option.none`, and JS array indexing (which
yields `undefined` out of range) is modelled by `List.getD` with a default
at the call sites where the source assumes in-range indices.
-/

/-- The `Vector3D` class: three real components. -/
structure Vector3D where
  x : ℝ
  y : ℝ
  z : ℝ

/-- `Vector3D.subtract(a, b)`: componentwise `a - b`. -/
def Vector3D.subtract (a b : Vector3D) : Vector3D :=
  ⟨a.x - b.x, a.y - b.y, a.z - b.z⟩

/-- `Vector3D.cross(a, b)`: the standard determinant formula. -/
def Vector3D.cross (a b : Vector3D) : Vector3D :=
  ⟨a.y * b.z - a.z * b.y,
   a.z * b.x - a.x * b.z,
   a.x * b.y - a.y * b.x⟩

/-- `Vector3D.dot(a, b) = a.x*b.x + a.y*b.y + a.z*b.z`. -/
def Vector3D.dot (a b : Vector3D) : ℝ :=
  a.x * b.x + a.y * b.y + a.z * b.z

/-- `magnitude() = Math.sqrt(x ** 2 + y ** 2 + z ** 2)`. -/
noncomputable def Vector3D.magnitude (v : Vector3D) : ℝ :=
  Real.sqrt (v.x ^ 2 + v.y ^ 2 + v.z ^ 2)

/-- `normalize() = v / |v|` (componentwise division by the magnitude). -/
noncomputable def Vector3D.normalize (v : Vector3D) : Vector3D :=
  ⟨v.x / v.magnitude, v.y / v.magnitude, v.z / v.magnitude⟩

/-- Negation of a vector (used to state "anti-parallel" in the spec;
not a method of the JS class). -/
def Vector3D.neg (v : Vector3D) : Vector3D :=
  ⟨-v.x, -v.y, -v.z⟩

/-- `Transformation.rotateXZ(v, angle)`: rotation about the vertical axis,
`x' = x·cosθ − z·sinθ`, `y' = y`, `z' = x·sinθ + z·cosθ`. -/
noncomputable def Transformation.rotateXZ (v : Vector3D) (angle : ℝ) : Vector3D :=
  ⟨v.x * Real.cos angle - v.z * Real.sin angle,
   v.y,
   v.x * Real.sin angle + v.z * Real.cos angle⟩

/-- `Transformation.translateZ(v, dz)`: adds `dz` to the z-component. -/
def Transformation.translateZ (v : Vector3D) (dz : ℝ) : Vector3D :=
  ⟨v.x, v.y, v.z + dz⟩

/-- A 2D screen point, the `{x, y}` object returned by `toScreenCoords`. -/
structure Point2D where
  x : ℝ
  y : ℝ

/-- The `Camera` class: canvas dimensions and the (unused) camera distance
set to 1 in the constructor. -/
structure Camera where
  canvasWidth : ℝ
  canvasHeight : ℝ
  distance : ℝ := 1

/-- `Camera.project(v)`: perspective division `(v.x / v.z, v.y / v.z, v.z)`,
keeping z for depth sorting. -/
noncomputable def Camera.project (_cam : Camera) (v : Vector3D) : Vector3D :=
  ⟨v.x / v.z, v.y / v.z, v.z⟩

/-- `Camera.toScreenCoords(v)`: normalized device coordinates to pixels,
`x = (v.x + 1) / 2 * canvasWidth`, `y = (1 - (v.y + 1) / 2) * canvasHeight`. -/
noncomputable def Camera.toScreenCoords (cam : Camera) (v : Vector3D) : Point2D :=
  ⟨(v.x + 1) / 2 * cam.canvasWidth,
   (1 - (v.y + 1) / 2) * cam.canvasHeight⟩

/-- The `Model3D` class: vertices, faces (lists of vertex indices), the
mutable rotation angle, and the position offset. -/
structure Model3D where
  vertices : List Vector3D
  faces : List (List ℕ)
  rotation : ℝ
  position : Vector3D

/-- The `Model3D` constructor: rotation starts at 0 and
`position = (0, 0, cameraDistance)`. -/
def Model3D.mk0 (vertices : List Vector3D) (faces : List (List ℕ))
    (cameraDistance : ℝ) : Model3D :=
  ⟨vertices, faces, 0, ⟨0, 0, cameraDistance⟩⟩

/-- `this.vertices[i]` — JS indexing; the pipeline only uses in-range
indices, modelled with a zero default. -/
def Model3D.vert (M : Model3D) (i : ℕ) : Vector3D :=
  M.vertices.getD i ⟨0, 0, 0⟩

/-- `Model3D.getFaceNormal(faceIndices)`: `null` for faces with fewer than
3 indices, otherwise `cross(v1 - v0, v2 - v0)`. -/
def Model3D.getFaceNormal (M : Model3D) (faceIndices : List ℕ) :
    Option Vector3D :=
  if faceIndices.length < 3 then none
  else
    some (Vector3D.cross
      (Vector3D.subtract (M.vert (faceIndices.getD 1 0)) (M.vert (faceIndices.getD 0 0)))
      (Vector3D.subtract (M.vert (faceIndices.getD 2 0)) (M.vert (faceIndices.getD 0 0))))

/-- `Model3D.isFaceVisible(faceIndices)`: `true` when the normal is `null`,
otherwise visible iff the rotated normal's z-component is negative. -/
noncomputable def Model3D.isFaceVisible (M : Model3D) (faceIndices : List ℕ) :
    Prop :=
  match M.getFaceNormal faceIndices with
  | none => True
  | some normal => (Transformation.rotateXZ normal M.rotation).z < 0

/-- `Model3D.getAverageDepth(faceIndices)`: the mean over the face's vertex
indices of the z-component after rotating then translating by `position.z`. -/
noncomputable def Model3D.getAverageDepth (M : Model3D) (faceIndices : List ℕ) :
    ℝ :=
  (faceIndices.map (fun idx =>
    (Transformation.translateZ
      (Transformation.rotateXZ (M.vert idx) M.rotation) M.position.z).z)).sum
    / faceIndices.length

/-- `Model3D.transformVertex(v)`: rotate first, then translate by
`position.z`. -/
noncomputable def Model3D.transformVertex (M : Model3D) (v : Vector3D) :
    Vector3D :=
  Transformation.translateZ (Transformation.rotateXZ v M.rotation) M.position.z

/-- `this.lightDirection = new Vector3D(0.5, 0.5, -0.5).normalize()` from
the `Renderer` constructor. -/
noncomputable def Renderer.lightDirection : Vector3D :=
  Vector3D.normalize ⟨0.5, 0.5, -0.5⟩

/-- The `rotatedNormal` local of `Renderer.drawShadedFace`: the face normal
rotated by the model's rotation (the JS code dereferences the normal
object, so this is meaningful when the face has at least 3 indices). -/
noncomputable def Renderer.rotatedNormal (M : Model3D) (faceIndices : List ℕ) :
    Vector3D :=
  Transformation.rotateXZ ((M.getFaceNormal faceIndices).getD ⟨0, 0, 0⟩)
    M.rotation

/-- The `brightness` local of `drawShadedFace`:
`Math.max(0, dot(normalizedNormal, lightDirection))`. -/
noncomputable def Renderer.brightness (M : Model3D) (faceIndices : List ℕ) : ℝ :=
  max 0 (Vector3D.dot ((Renderer.rotatedNormal M faceIndices).normalize)
    Renderer.lightDirection)

/-- `minBrightness = 0.3` in `drawShadedFace`. -/
noncomputable def Renderer.minBrightness : ℝ := 0.3

/-- `finalBrightness = minBrightness + brightness * (1 - minBrightness)`. -/
noncomputable def Renderer.finalBrightness (M : Model3D) (faceIndices : List ℕ) :
    ℝ :=
  Renderer.minBrightness
    + Renderer.brightness M faceIndices * (1 - Renderer.minBrightness)

/-- `colorValue = Math.floor(255 * finalBrightness)`. -/
noncomputable def Renderer.colorValue (M : Model3D) (faceIndices : List ℕ) : ℤ :=
  ⌊255 * Renderer.finalBrightness M faceIndices⌋

/-- The `facesWithDepth` array built each frame in `Application.render`:
each face paired with its `getAverageDepth`. -/
noncomputable def Application.facesWithDepth (M : Model3D) :
    List (List ℕ × ℝ) :=
  M.faces.map (fun face => (face, M.getAverageDepth face))

/-- `facesWithDepth.sort((a, b) => b.depth - a.depth)`: a stable comparison
sort that places `a` before `b` when `b.depth ≤ a.depth`, i.e. descending
depth. -/
noncomputable def Application.sortedFacesWithDepth (M : Model3D) :
    List (List ℕ × ℝ) :=
  (Application.facesWithDepth M).mergeSort (fun a b => decide (b.2 ≤ a.2))

/-- Visibility over the reals is classically decidable; this only lets the
culling branch of the render loop be written as a filter. -/
noncomputable instance (M : Model3D) (faceIndices : List ℕ) :
    Decidable (M.isFaceVisible faceIndices) :=
  Classical.propDecidable _

/-- The faces `Application.render` hands to `drawFace`, in order: the
depth-sorted faces minus those skipped by the culling branch
`if (!this.renderer.wireframeMode && !this.model.isFaceVisible(face)) continue`. -/
noncomputable def Application.renderedFaces (M : Model3D)
    (wireframeMode : Bool) : List (List ℕ) :=
  ((Application.sortedFacesWithDepth M).filter
    (fun p => wireframeMode || decide (M.isFaceVisible p.1))).map Prod.fst

/-- The record returned by `parseOBJ`: the compacted vertex list (an entry
is `none` when a face referenced an out-of-range or negative vertex index,
where JS stores `undefined`) and the triangulated, remapped faces. -/
structure ParsedOBJ where
  vertices : List (Option Vector3D)
  faces : List (List ℕ)

/-- The fan-triangulation loop of `parseOBJ`: when `idxs.length >= 3`, emit
`[idxs[0], idxs[i], idxs[i + 1]]` for `i = 1 .. idxs.length - 2`. -/
def fanTriangulate (idxs : List ℤ) : List (List ℤ) :=
  if 3 ≤ idxs.length then
    (List.range (idxs.length - 2)).map (fun i =>
      [idxs.getD 0 0, idxs.getD (i + 1) 0, idxs.getD (i + 2) 0])
  else []

/-- JS `String.prototype.split` against a class of separator characters:
cut the character list at every character satisfying `p`, keeping the
(possibly empty) pieces between cuts. JS strings are modelled as `List Char`
throughout the parser. -/
def splitOnPred (p : Char → Bool) : List Char → List (List Char)
  | [] => [[]]
  | c :: cs =>
    if p c then [] :: splitOnPred p cs
    else
      match splitOnPred p cs with
      | [] => [[c]]
      | t :: ts => (c :: t) :: ts

/-- `text.split(/\r?\n/)`: split at each newline, a carriage return
directly before the cut being consumed with it. -/
def splitLines (text : List Char) : List (List Char) :=
  (splitOnPred (fun c => c == ('\n' : Char)) text).map (fun l =>
    if l.getLast? = some ('\r' : Char) then l.dropLast else l)

/-- JS `trim()`: remove whitespace from both ends. -/
def trimChars (cs : List Char) : List Char :=
  ((cs.dropWhile Char.isWhitespace).reverse.dropWhile Char.isWhitespace).reverse

/-- `line.split(/\s+/)` as applied to an already trimmed line: the maximal
whitespace-free tokens. -/
def splitTokens (cs : List Char) : List (List Char) :=
  (splitOnPred Char.isWhitespace cs).filter (fun t => !t.isEmpty)

/-- One iteration of the line loop of `parseOBJ`, accumulating raw vertices
and (1-based-corrected, possibly negative) face index lists. `pf` and
`pint` model the JS builtins `parseFloat` and `parseInt(·, 10)`, with
`none` for `NaN`; a missing token (JS `undefined`) also parses to `NaN`,
modelled by binding through `Option`. -/
def parseOBJLine (pf : List Char → Option ℝ) (pint : List Char → Option ℤ)
    (acc : List Vector3D × List (List ℤ)) (raw : List Char) :
    List Vector3D × List (List ℤ) :=
  let line := trimChars raw
  if line.isEmpty || (line.head? == some ('#' : Char)) then acc
  else
    let parts := splitTokens line
    if parts.headD [] = [('v' : Char)] then
      match (parts[1]?).bind pf, (parts[2]?).bind pf, (parts[3]?).bind pf with
      | some x, some y, some z => (acc.1 ++ [⟨x, y, z⟩], acc.2)
      | _, _, _ => acc
    else if parts.headD [] = [('f' : Char)] then
      (acc.1, acc.2 ++ fanTriangulate ((parts.drop 1).filterMap
        (fun p => (pint ((splitOnPred (fun c => c == ('/' : Char)) p).headD
          [])).map (fun n => n - 1))))
    else acc

/-- One insertion step of the ascending sort JS applies to the used-index
array via `sort((a, b) => a - b)`. -/
def insertSorted (x : ℤ) : List ℤ → List ℤ
  | [] => [x]
  | y :: ys => if x ≤ y then x :: y :: ys else y :: insertSorted x ys

/-- Ascending insertion sort for the used-index array. -/
def sortInts (l : List ℤ) : List ℤ :=
  l.foldr insertSorted []

/-- `parseOBJ(text)`: split into lines, parse `v`/`f` records,
fan-triangulate, then keep only the vertex slots used by some face (the
distinct used indices, sorted ascending) and remap each face index to its
position in the compacted list. -/
def parseOBJ (pf : List Char → Option ℝ) (pint : List Char → Option ℤ)
    (text : List Char) : ParsedOBJ :=
  let raw := (splitLines text).foldl (parseOBJLine pf pint) ([], [])
  let usedIndices : List ℤ := sortInts raw.2.flatten.dedup
  let cleanVerts : List (Option Vector3D) :=
    usedIndices.map (fun oldIdx =>
      if oldIdx < 0 then none else raw.1[oldIdx.toNat]?)
  let cleanFaces : List (List ℕ) :=
    raw.2.map (fun f => f.map (fun oldIdx => usedIndices.indexOf oldIdx))
  ⟨cleanVerts, cleanFaces⟩

/-- C7: `rotateXZ(v, θ)` returns `(x·cosθ − z·sinθ, y, x·sinθ + z·cosθ)`,
preserves the y-component and the magnitude, is the identity at angle 0,
and rotating by θ then −θ returns the original vector (exact reals). -/
theorem rotateXZ_formula_y_magnitude_id_inverse (v : Vector3D) (θ : ℝ) :
    Transformation.rotateXZ v θ =
      ⟨v.x * Real.cos θ - v.z * Real.sin θ, v.y,
       v.x * Real.sin θ + v.z * Real.cos θ⟩ ∧
    (Transformation.rotateXZ v θ).y = v.y ∧
    (Transformation.rotateXZ v θ).magnitude = v.magnitude ∧
    Transformation.rotateXZ v 0 = v ∧
    Transformation.rotateXZ (Transformation.rotateXZ v θ) (-θ) = v := by
  refine ⟨rfl, rfl, ?_, ?_, ?_⟩
  · unfold Vector3D.magnitude Transformation.rotateXZ
    congr 1
    linear_combination (v.x ^ 2 + v.z ^ 2) * Real.sin_sq_add_cos_sq θ
  · cases v
    simp [Transformation.rotateXZ]
  · cases v with
    | mk x y z =>
      simp only [Transformation.rotateXZ, Real.cos_neg, Real.sin_neg,
        Vector3D.mk.injEq]
      refine ⟨?_, trivial, ?_⟩
      · linear_combination x * Real.sin_sq_add_cos_sq θ
      · linear_combination z * Real.sin_sq_add_cos_sq θ

/-- C4: `project(v)` returns `(v.x / v.z, v.y / v.z, v.z)`; at depth 1 the
x,y are unchanged, at depth 2 halved, and at depth 0.5 doubled. -/
theorem project_inverse_depth_law (cam : Camera) (v : Vector3D) (h : v.z ≠ 0) :
    cam.project v = ⟨v.x / v.z, v.y / v.z, v.z⟩ ∧
    (v.z = 1 → (cam.project v).x = v.x ∧ (cam.project v).y = v.y) ∧
    (v.z = 2 → (cam.project v).x = v.x / 2 ∧ (cam.project v).y = v.y / 2) ∧
    (v.z = 1 / 2 → (cam.project v).x = 2 * v.x ∧ (cam.project v).y = 2 * v.y) := by
  refine ⟨rfl, fun h1 => ?_, fun h2 => ?_, fun hh => ?_⟩
  · simp [Camera.project, h1]
  · simp [Camera.project, h2]
  · constructor
    · show v.x / v.z = 2 * v.x
      rw [hh]; ring
    · show v.y / v.z = 2 * v.y
      rw [hh]; ring

/-- C4 witness: the point `(3, 4, 2)` has nonzero depth and projects to
x-coordinate `3 / 2`. -/
theorem project_inverse_depth_law_witness :
    ((⟨3, 4, 2⟩ : Vector3D).z ≠ 0) ∧
    (Camera.project ⟨800, 800, 1⟩ ⟨3, 4, 2⟩).x = 3 / 2 := by
  have hz : ((⟨3, 4, 2⟩ : Vector3D).z ≠ 0) := by norm_num
  exact ⟨hz,
    ((project_inverse_depth_law ⟨800, 800, 1⟩ ⟨3, 4, 2⟩ hz).2.2.1 rfl).1⟩

/-- C5: `toScreenCoords(p)` returns
`((p.x + 1) / 2 * width, (1 - (p.y + 1) / 2) * height)` with no clamping;
`(0,0)` maps to the center, `(-1,-1)` to `(0, height)`, `(1,1)` to
`(width, 0)`. -/
theorem toScreenCoords_mapping (cam : Camera) (v : Vector3D) :
    cam.toScreenCoords v =
      ⟨(v.x + 1) / 2 * cam.canvasWidth, (1 - (v.y + 1) / 2) * cam.canvasHeight⟩ ∧
    cam.toScreenCoords ⟨0, 0, v.z⟩ = ⟨cam.canvasWidth / 2, cam.canvasHeight / 2⟩ ∧
    cam.toScreenCoords ⟨-1, -1, v.z⟩ = ⟨0, cam.canvasHeight⟩ ∧
    cam.toScreenCoords ⟨1, 1, v.z⟩ = ⟨cam.canvasWidth, 0⟩ := by
  refine ⟨rfl, ?_, ?_, ?_⟩ <;>
    simp only [Camera.toScreenCoords, Point2D.mk.injEq] <;>
    constructor <;> ring

/-- C1: for a face with at least 3 vertex indices, `getFaceNormal` is the
cross product of the first two edges, and `isFaceVisible` holds iff the
rotated normal's z-component is negative. -/
theorem isFaceVisible_iff_rotated_normal_neg (M : Model3D) (f : List ℕ)
    (h : 3 ≤ f.length) :
    M.getFaceNormal f = some (Vector3D.cross
      (Vector3D.subtract (M.vert (f.getD 1 0)) (M.vert (f.getD 0 0)))
      (Vector3D.subtract (M.vert (f.getD 2 0)) (M.vert (f.getD 0 0)))) ∧
    (M.isFaceVisible f ↔
      (Transformation.rotateXZ (Vector3D.cross
        (Vector3D.subtract (M.vert (f.getD 1 0)) (M.vert (f.getD 0 0)))
        (Vector3D.subtract (M.vert (f.getD 2 0)) (M.vert (f.getD 0 0))))
        M.rotation).z < 0) := by
  have hn : ¬ f.length < 3 := Nat.not_lt.mpr h
  constructor
  · simp [Model3D.getFaceNormal, hn]
  · simp [Model3D.isFaceVisible, Model3D.getFaceNormal, hn]

/-- C1 witness: a planar quad `[0,1,2,3]` wound so its normal points
toward the camera is visible at rotation 0 and invisible at rotation π. -/
theorem isFaceVisible_iff_rotated_normal_neg_witness :
    3 ≤ ([0, 1, 2, 3] : List ℕ).length ∧
    Model3D.isFaceVisible
      ⟨[⟨0, 0, 0⟩, ⟨0, 1, 0⟩, ⟨1, 1, 0⟩, ⟨1, 0, 0⟩], [[0, 1, 2, 3]], 0,
        ⟨0, 0, 2.5⟩⟩ [0, 1, 2, 3] ∧
    ¬ Model3D.isFaceVisible
      ⟨[⟨0, 0, 0⟩, ⟨0, 1, 0⟩, ⟨1, 1, 0⟩, ⟨1, 0, 0⟩], [[0, 1, 2, 3]], Real.pi,
        ⟨0, 0, 2.5⟩⟩ [0, 1, 2, 3] := by
  refine ⟨by decide, ?_, ?_⟩
  · refine (isFaceVisible_iff_rotated_normal_neg _ [0, 1, 2, 3] (by decide)).2.mpr ?_
    norm_num [Model3D.vert, Vector3D.cross, Vector3D.subtract,
      Transformation.rotateXZ, List.getD]
  · intro hvis
    have h := (isFaceVisible_iff_rotated_normal_neg _ [0, 1, 2, 3] (by decide)).2.mp hvis
    norm_num [Model3D.vert, Vector3D.cross, Vector3D.subtract,
      Transformation.rotateXZ, List.getD] at h

/-- C9: a face with fewer than 3 vertex indices has `getFaceNormal = null`
and is treated as visible by `isFaceVisible`. -/
theorem short_face_normal_none_visible (M : Model3D) (f : List ℕ)
    (h : f.length < 3) :
    M.getFaceNormal f = none ∧ M.isFaceVisible f := by
  constructor
  · simp [Model3D.getFaceNormal, h]
  · simp [Model3D.isFaceVisible, Model3D.getFaceNormal, h]

/-- C9 witness: the two-index face `[0, 1]` gets a `null` normal and is
treated as visible. -/
theorem short_face_normal_none_visible_witness :
    (([0, 1] : List ℕ).length < 3) ∧
    Model3D.getFaceNormal ⟨[⟨0, 0, 0⟩], [[0, 1]], 0, ⟨0, 0, 2.5⟩⟩ [0, 1] = none ∧
    Model3D.isFaceVisible ⟨[⟨0, 0, 0⟩], [[0, 1]], 0, ⟨0, 0, 2.5⟩⟩ [0, 1] := by
  have h := short_face_normal_none_visible
    ⟨[⟨0, 0, 0⟩], [[0, 1]], 0, ⟨0, 0, 2.5⟩⟩ [0, 1] (by decide)
  exact ⟨by decide, h.1, h.2⟩

/-- Helper: the summed translated depths split into the rotated depths plus
`length * position.z`. -/
theorem sum_translated_depths (M : Model3D) (f : List ℕ) :
    (f.map (fun idx =>
      (Transformation.translateZ
        (Transformation.rotateXZ (M.vert idx) M.rotation) M.position.z).z)).sum =
      (f.map (fun idx =>
        (Transformation.rotateXZ (M.vert idx) M.rotation).z)).sum
        + f.length * M.position.z := by
  induction f with
  | nil => simp
  | cons a t ih =>
    simp only [List.map_cons, List.sum_cons, List.length_cons]
    rw [ih]
    simp only [Transformation.translateZ]
    push_cast
    ring

/-- C6: `getAverageDepth` is the mean of the z-components of the
rotate-then-translate transform of the face's vertices (as in
`transformVertex`), and for a nonempty face it equals `position.z` plus the
mean of the rotated z-components. -/
theorem getAverageDepth_transform_mean (M : Model3D) (f : List ℕ) :
    M.getAverageDepth f =
      (f.map (fun idx => (M.transformVertex (M.vert idx)).z)).sum / f.length ∧
    (f ≠ [] → M.getAverageDepth f =
      M.position.z +
        (f.map (fun idx =>
          (Transformation.rotateXZ (M.vert idx) M.rotation).z)).sum / f.length) := by
  refine ⟨rfl, fun hne => ?_⟩
  have hsum := sum_translated_depths M f
  have hlen : (f.length : ℝ) ≠ 0 := by
    exact_mod_cast Nat.cast_ne_zero.mpr (fun h0 => hne (List.length_eq_zero.mp h0))
  unfold Model3D.getAverageDepth
  rw [hsum]
  field_simp
  ring

/-- C6 witness: a one-vertex face of a model at depth offset 2.5 with the
vertex at z = 3 has average depth 5.5. -/
theorem getAverageDepth_transform_mean_witness :
    (([0] : List ℕ) ≠ []) ∧
    Model3D.getAverageDepth ⟨[⟨1, 2, 3⟩], [[0]], 0, ⟨0, 0, 2.5⟩⟩ [0] = 5.5 := by
  refine ⟨by decide, ?_⟩
  have h := (getAverageDepth_transform_mean
    ⟨[⟨1, 2, 3⟩], [[0]], 0, ⟨0, 0, 2.5⟩⟩ [0]).2 (by decide)
  rw [h]
  simp [Model3D.vert, Transformation.rotateXZ, List.getD]
  norm_num

/-- Helper: negating the left argument negates the dot product. -/
theorem dot_neg_left (a b : Vector3D) :
    Vector3D.dot a.neg b = -(Vector3D.dot a b) := by
  simp only [Vector3D.neg, Vector3D.dot]
  ring

/-- Helper: the renderer's light direction is a unit vector. -/
theorem lightDirection_dot_self :
    Vector3D.dot Renderer.lightDirection Renderer.lightDirection = 1 := by
  have h75 : Real.sqrt ((0.5 : ℝ) ^ 2 + (0.5 : ℝ) ^ 2 + (-0.5 : ℝ) ^ 2) ^ 2
      = 0.75 := by
    rw [Real.sq_sqrt (by norm_num)]
    norm_num
  have hpos : (0 : ℝ) < Real.sqrt ((0.5 : ℝ) ^ 2 + (0.5 : ℝ) ^ 2 + (-0.5 : ℝ) ^ 2) :=
    Real.sqrt_pos.mpr (by norm_num)
  simp only [Renderer.lightDirection, Vector3D.normalize, Vector3D.dot,
    Vector3D.magnitude]
  field_simp
  nlinarith [h75]

/-- C3: for a face whose rotated normal exists, the shading step computes
`brightness = max(0, dot(normalize(rotatedNormal), lightDirection))`,
`finalBrightness = 0.3 + brightness * (1 - 0.3)` and
`colorValue = floor(255 * finalBrightness)`; `finalBrightness` is at least
0.3, exactly 0.3 for a unit normal anti-parallel to the light, and exactly
1 for a unit normal equal to the light direction. -/
theorem shading_floor_and_extremes (M : Model3D) (f : List ℕ)
    (h : Renderer.rotatedNormal M f ≠ ⟨0, 0, 0⟩) :
    Renderer.brightness M f =
      max 0 (Vector3D.dot ((Renderer.rotatedNormal M f).normalize)
        Renderer.lightDirection) ∧
    Renderer.finalBrightness M f =
      0.3 + Renderer.brightness M f * (1 - 0.3) ∧
    Renderer.colorValue M f = ⌊255 * Renderer.finalBrightness M f⌋ ∧
    0.3 ≤ Renderer.finalBrightness M f ∧
    ((Renderer.rotatedNormal M f).normalize = Renderer.lightDirection.neg →
      Renderer.finalBrightness M f = 0.3) ∧
    ((Renderer.rotatedNormal M f).normalize = Renderer.lightDirection →
      Renderer.finalBrightness M f = 1) := by
  refine ⟨rfl, rfl, rfl, ?_, fun hanti => ?_, fun hpar => ?_⟩
  · have hb : 0 ≤ Renderer.brightness M f := le_max_left 0 _
    unfold Renderer.finalBrightness Renderer.minBrightness
    nlinarith [hb]
  · unfold Renderer.finalBrightness Renderer.brightness Renderer.minBrightness
    rw [hanti, dot_neg_left, lightDirection_dot_self]
    norm_num
  · unfold Renderer.finalBrightness Renderer.brightness Renderer.minBrightness
    rw [hpar, lightDirection_dot_self]
    norm_num

/-- Helper: `sqrt(0.5² + 0.5² + (-0.5)²) = sqrt 3 / 2`. -/
theorem sqrt_three_quarters :
    Real.sqrt ((0.5 : ℝ) ^ 2 + (0.5 : ℝ) ^ 2 + (-0.5 : ℝ) ^ 2)
      = Real.sqrt 3 / 2 := by
  rw [show (0.5 : ℝ) ^ 2 + (0.5 : ℝ) ^ 2 + (-0.5 : ℝ) ^ 2 = 3 / 4 by norm_num]
  rw [Real.sqrt_div (by norm_num : (0 : ℝ) ≤ 3) 4]
  rw [show (4 : ℝ) = 2 ^ 2 by norm_num, Real.sqrt_sq (by norm_num : (0 : ℝ) ≤ 2)]

/-- Helper: the unit vector along `(1, 1, -1)` is the light direction. -/
theorem normalize_one_one_negone :
    (⟨1, 1, -1⟩ : Vector3D).normalize = Renderer.lightDirection := by
  have h34 := sqrt_three_quarters
  have hne : Real.sqrt 3 ≠ 0 := by
    rw [Real.sqrt_ne_zero']
    norm_num
  simp only [Renderer.lightDirection, Vector3D.normalize, Vector3D.magnitude]
  simp only [Vector3D.mk.injEq]
  norm_num [h34]
  refine ⟨?_, ?_⟩ <;> field_simp <;>
    rw [show (4 : ℝ) = 2 ^ 2 by norm_num, Real.sqrt_sq (by norm_num : (0 : ℝ) ≤ 2)]

/-- Helper: the unit vector along `(-1, -1, 1)` is the negated light
direction. -/
theorem normalize_negone_negone_one :
    (⟨-1, -1, 1⟩ : Vector3D).normalize = Renderer.lightDirection.neg := by
  have h34 := sqrt_three_quarters
  have hne : Real.sqrt 3 ≠ 0 := by
    rw [Real.sqrt_ne_zero']
    norm_num
  simp only [Renderer.lightDirection, Vector3D.normalize, Vector3D.magnitude,
    Vector3D.neg]
  simp only [Vector3D.mk.injEq]
  norm_num [h34]
  refine ⟨?_, ?_⟩ <;> field_simp <;>
    rw [show (4 : ℝ) = 2 ^ 2 by norm_num, Real.sqrt_sq (by norm_num : (0 : ℝ) ≤ 2)]

/-- C3 witness: a triangle whose rotated normal is `(1, 1, -1)` (parallel
to the light) gets final brightness exactly 1; the oppositely wound
triangle, with rotated normal `(-1, -1, 1)` (anti-parallel), gets exactly
0.3. -/
theorem shading_floor_and_extremes_witness :
    (Renderer.rotatedNormal
        ⟨[⟨0, 0, 0⟩, ⟨0, 1, 1⟩, ⟨1, 0, 1⟩], [[0, 1, 2]], 0, ⟨0, 0, 2.5⟩⟩
        [0, 1, 2] ≠ ⟨0, 0, 0⟩ ∧
      Renderer.finalBrightness
        ⟨[⟨0, 0, 0⟩, ⟨0, 1, 1⟩, ⟨1, 0, 1⟩], [[0, 1, 2]], 0, ⟨0, 0, 2.5⟩⟩
        [0, 1, 2] = 1) ∧
    (Renderer.rotatedNormal
        ⟨[⟨0, 0, 0⟩, ⟨0, 1, 1⟩, ⟨1, 0, 1⟩], [[0, 2, 1]], 0, ⟨0, 0, 2.5⟩⟩
        [0, 2, 1] ≠ ⟨0, 0, 0⟩ ∧
      Renderer.finalBrightness
        ⟨[⟨0, 0, 0⟩, ⟨0, 1, 1⟩, ⟨1, 0, 1⟩], [[0, 2, 1]], 0, ⟨0, 0, 2.5⟩⟩
        [0, 2, 1] = 0.3) := by
  have hrotA : Renderer.rotatedNormal
      ⟨[⟨0, 0, 0⟩, ⟨0, 1, 1⟩, ⟨1, 0, 1⟩], [[0, 1, 2]], 0, ⟨0, 0, 2.5⟩⟩
      [0, 1, 2] = ⟨1, 1, -1⟩ := by
    norm_num [Renderer.rotatedNormal, Model3D.getFaceNormal, Model3D.vert,
      Vector3D.cross, Vector3D.subtract, Transformation.rotateXZ, List.getD,
      Vector3D.mk.injEq]
  have hrotB : Renderer.rotatedNormal
      ⟨[⟨0, 0, 0⟩, ⟨0, 1, 1⟩, ⟨1, 0, 1⟩], [[0, 2, 1]], 0, ⟨0, 0, 2.5⟩⟩
      [0, 2, 1] = ⟨-1, -1, 1⟩ := by
    norm_num [Renderer.rotatedNormal, Model3D.getFaceNormal, Model3D.vert,
      Vector3D.cross, Vector3D.subtract, Transformation.rotateXZ, List.getD,
      Vector3D.mk.injEq]
  have hneA : Renderer.rotatedNormal
      ⟨[⟨0, 0, 0⟩, ⟨0, 1, 1⟩, ⟨1, 0, 1⟩], [[0, 1, 2]], 0, ⟨0, 0, 2.5⟩⟩
      [0, 1, 2] ≠ ⟨0, 0, 0⟩ := by
    rw [hrotA]
    norm_num [Vector3D.mk.injEq]
  have hneB : Renderer.rotatedNormal
      ⟨[⟨0, 0, 0⟩, ⟨0, 1, 1⟩, ⟨1, 0, 1⟩], [[0, 2, 1]], 0, ⟨0, 0, 2.5⟩⟩
      [0, 2, 1] ≠ ⟨0, 0, 0⟩ := by
    rw [hrotB]
    norm_num [Vector3D.mk.injEq]
  refine ⟨⟨hneA, ?_⟩, ⟨hneB, ?_⟩⟩
  · exact (shading_floor_and_extremes _ [0, 1, 2] hneA).2.2.2.2.2
      (by rw [hrotA]; exact normalize_one_one_negone)
  · exact (shading_floor_and_extremes _ [0, 2, 1] hneB).2.2.2.2.1
      (by rw [hrotB]; exact normalize_negone_negone_one)

/-- Helper: the Boolean comparison used by the depth sort is transitive. -/
theorem depthLe_trans (a b c : List ℕ × ℝ) (hab : decide (b.2 ≤ a.2) = true)
    (hbc : decide (c.2 ≤ b.2) = true) : decide (c.2 ≤ a.2) = true := by
  simp only [decide_eq_true_iff] at hab hbc ⊢
  exact le_trans hbc hab

/-- Helper: the Boolean comparison used by the depth sort is total. -/
theorem depthLe_total (a b : List ℕ × ℝ) :
    (decide (b.2 ≤ a.2) || decide (a.2 ≤ b.2)) = true := by
  simp only [Bool.or_eq_true, decide_eq_true_iff]
  exact le_total b.2 a.2

/-- Helper: the sorted per-frame list is pairwise descending in its stored
depth component. -/
theorem sortedFacesWithDepth_pairwise (M : Model3D) :
    List.Pairwise (fun a b => b.2 ≤ a.2)
      (Application.sortedFacesWithDepth M) := by
  have hs := List.sorted_mergeSort depthLe_trans depthLe_total
    (Application.facesWithDepth M)
  exact hs.imp (fun h => of_decide_eq_true h)

/-- Helper: every entry of the sorted per-frame list stores the
`getAverageDepth` of its face. -/
theorem sortedFacesWithDepth_depths (M : Model3D) :
    ∀ p ∈ Application.sortedFacesWithDepth M,
      p.2 = M.getAverageDepth p.1 := by
  intro p hp
  have hp' : p ∈ Application.facesWithDepth M :=
    (List.mergeSort_perm (Application.facesWithDepth M) _).subset hp
  obtain ⟨face, _, rfl⟩ := List.mem_map.mp hp'
  rfl

/-- C2: each frame pairs every face with its `getAverageDepth` and the
depth sort emits a permutation of those pairs in descending depth order;
consequently the faces handed to the drawing step (with or without
culling) are in descending `getAverageDepth` order. -/
theorem render_depth_order_descending (M : Model3D) :
    (Application.sortedFacesWithDepth M).Perm
      (M.faces.map (fun face => (face, M.getAverageDepth face))) ∧
    List.Pairwise (fun a b => b.2 ≤ a.2)
      (Application.sortedFacesWithDepth M) ∧
    List.Forall (fun p => p.2 = M.getAverageDepth p.1)
      (Application.sortedFacesWithDepth M) ∧
    ∀ w : Bool, List.Pairwise
      (fun f g => M.getAverageDepth g ≤ M.getAverageDepth f)
      (Application.renderedFaces M w) := by
  refine ⟨List.mergeSort_perm _ _, sortedFacesWithDepth_pairwise M, ?_, ?_⟩
  · rw [List.forall_iff_forall_mem]
    exact sortedFacesWithDepth_depths M
  · intro w
    have hsorted' : List.Pairwise
        (fun a b : List ℕ × ℝ =>
          M.getAverageDepth b.1 ≤ M.getAverageDepth a.1)
        (Application.sortedFacesWithDepth M) := by
      refine (sortedFacesWithDepth_pairwise M).imp_of_mem ?_
      intro a b ha hb hr
      rw [← sortedFacesWithDepth_depths M a ha,
        ← sortedFacesWithDepth_depths M b hb]
      exact hr
    unfold Application.renderedFaces
    rw [List.pairwise_map]
    exact hsorted'.sublist (List.filter_sublist _)

/-- C8: with wireframe mode on, culling is skipped and every depth-sorted
face is drawn; with it off, exactly the faces with `isFaceVisible` are
drawn, as a subsequence of the depth-sorted order. -/
theorem render_wireframe_skips_culling (M : Model3D) (f : List ℕ) :
    Application.renderedFaces M true =
      (Application.sortedFacesWithDepth M).map Prod.fst ∧
    (f ∈ Application.renderedFaces M false ↔
      f ∈ (Application.sortedFacesWithDepth M).map Prod.fst ∧
        M.isFaceVisible f) ∧
    (Application.renderedFaces M false).Sublist
      ((Application.sortedFacesWithDepth M).map Prod.fst) := by
  refine ⟨?_, ?_, ?_⟩
  · unfold Application.renderedFaces
    simp
  · unfold Application.renderedFaces
    simp only [List.mem_map, List.mem_filter, Bool.false_or,
      decide_eq_true_iff]
    constructor
    · rintro ⟨p, ⟨hp, hvis⟩, rfl⟩
      exact ⟨⟨p, hp, rfl⟩, hvis⟩
    · rintro ⟨⟨p, hp, rfl⟩, hvis⟩
      exact ⟨p, ⟨hp, hvis⟩, rfl⟩
  · unfold Application.renderedFaces
    exact List.Sublist.map _ (List.filter_sublist _)

/-- Helper: every triangle emitted by fan triangulation has exactly 3
indices. -/
theorem fanTriangulate_length (idxs : List ℤ) (g : List ℤ)
    (hg : g ∈ fanTriangulate idxs) : g.length = 3 := by
  unfold fanTriangulate at hg
  by_cases h3 : 3 ≤ idxs.length
  · simp only [h3, if_true, List.mem_map] at hg
    obtain ⟨i, _, rfl⟩ := hg
    rfl
  · simp [h3] at hg

/-- Helper: the line-parsing fold only ever appends length-3 faces. -/
theorem parse_fold_faces_length (pf : List Char → Option ℝ)
    (pint : List Char → Option ℤ) (lines : List (List Char))
    (acc : List Vector3D × List (List ℤ))
    (hacc : ∀ g ∈ acc.2, g.length = 3) :
    ∀ g ∈ (lines.foldl (parseOBJLine pf pint) acc).2, g.length = 3 := by
  induction lines generalizing acc with
  | nil => exact hacc
  | cons l rest ih =>
    refine ih _ ?_
    intro g' hg'
    simp only [parseOBJLine] at hg'
    split at hg'
    · exact hacc g' hg'
    · split at hg'
      · split at hg'
        · exact hacc g' hg'
        · exact hacc g' hg'
      · split at hg'
        · rcases List.mem_append.mp hg' with h | h
          · exact hacc g' h
          · exact fanTriangulate_length _ g' h
        · exact hacc g' hg'

/-- Helper: insertion keeps exactly the old members plus the new one. -/
theorem mem_insertSorted (x a : ℤ) (l : List ℤ) :
    a ∈ insertSorted x l ↔ a = x ∨ a ∈ l := by
  induction l with
  | nil => simp [insertSorted]
  | cons y ys ih =>
    by_cases hxy : x ≤ y
    · simp [insertSorted, hxy]
    · simp only [insertSorted, hxy, if_false, List.mem_cons, ih]
      tauto

/-- Helper: the used-index sort preserves membership. -/
theorem mem_sortInts (a : ℤ) (l : List ℤ) : a ∈ sortInts l ↔ a ∈ l := by
  unfold sortInts
  induction l with
  | nil => simp
  | cons y ys ih =>
    simp only [List.foldr_cons, mem_insertSorted, ih, List.mem_cons]

/-- C10: every face returned by `parseOBJ` has exactly 3 vertex indices,
and each of its indices is a natural number strictly below the length of
the returned (compacted) vertex array, for any input text and any
behaviour of the numeric parsers. -/
theorem parseOBJ_faces_triangulated_in_range (pf : List Char → Option ℝ)
    (pint : List Char → Option ℤ) (text : List Char) (g : List ℕ) (i : ℕ)
    (hg : g ∈ (parseOBJ pf pint text).faces) :
    g.length = 3 ∧ (i ∈ g → i < (parseOBJ pf pint text).vertices.length) := by
  have hlen3 : ∀ g' ∈ ((splitLines text).foldl (parseOBJLine pf pint)
      ([], [])).2, g'.length = 3 :=
    parse_fold_faces_length pf pint _ _ (by intro g' hg'; simp at hg')
  simp only [parseOBJ, List.mem_map] at hg
  obtain ⟨f0, hf0, rfl⟩ := hg
  constructor
  · rw [List.length_map]
    exact hlen3 f0 hf0
  · intro hi
    simp only [parseOBJ, List.length_map]
    rw [List.mem_map] at hi
    obtain ⟨old, hold, rfl⟩ := hi
    apply List.indexOf_lt_length.mpr
    rw [mem_sortInts, List.mem_dedup]
    exact List.mem_flatten.mpr ⟨f0, hf0, hold⟩

/-- C10 witness: parsing the line `f 1 2 3` yields the single triangle
`[0, 1, 2]`, of length 3, with every index below the compacted vertex
count 3. -/
theorem parseOBJ_faces_triangulated_in_range_witness :
    ([0, 1, 2] ∈ (parseOBJ (fun _ => none)
      (fun s => if s = [('1' : Char)] then some 1
        else if s = [('2' : Char)] then some 2
        else if s = [('3' : Char)] then some 3 else none)
      [('f' : Char), (' ' : Char), ('1' : Char), (' ' : Char), ('2' : Char),
       (' ' : Char), ('3' : Char)]).faces) ∧
    ([0, 1, 2] : List ℕ).length = 3 ∧
    (2 : ℕ) < (parseOBJ (fun _ => none)
      (fun s => if s = [('1' : Char)] then some 1
        else if s = [('2' : Char)] then some 2
        else if s = [('3' : Char)] then some 3 else none)
      [('f' : Char), (' ' : Char), ('1' : Char), (' ' : Char), ('2' : Char),
       (' ' : Char), ('3' : Char)]).vertices.length := by
  have hg : ([0, 1, 2] ∈ (parseOBJ (fun _ => none)
      (fun s => if s = [('1' : Char)] then some 1
        else if s = [('2' : Char)] then some 2
        else if s = [('3' : Char)] then some 3 else none)
      [('f' : Char), (' ' : Char), ('1' : Char), (' ' : Char), ('2' : Char),
       (' ' : Char), ('3' : Char)]).faces) := by decide
  have h := parseOBJ_faces_triangulated_in_range (fun _ => none)
    (fun s => if s = [('1' : Char)] then some 1
      else if s = [('2' : Char)] then some 2
      else if s = [('3' : Char)] then some 3 else none)
    [('f' : Char), (' ' : Char), ('1' : Char), (' ' : Char), ('2' : Char),
     (' ' : Char), ('3' : Char)] [0, 1, 2] 2 hg
  exact ⟨hg, h.1, h.2 (by decide)⟩
